import Mathlib

/-!
Shallow embedding of the real-time feed subsystem of the TikTok-clone
backend (backend/server.js, backend/socket.js, backend/trendingJob.js,
backend/controllers/videoController.js, backend/controllers/userController.js,
backend/models/User.js, backend/models/Video.js), together with theorems
settling the specification claims about it.
-/

namespace TikTok

/-- A video record, after backend/models/Video.js: `title`, `url`,
`user` (owner id), `likes` (Number, schema default 0 — modelled as
`Option Nat` so that a document missing the field can be distinguished),
`comments`.  `vid` models the Mongo `_id`. -/
structure Video where
  vid : Nat
  title : String
  url : String
  user : Nat
  likes : Option Nat
  comments : List (String × String)
deriving DecidableEq

/-- JavaScript `(video.likes || 0)`: a missing (or zero) likes field reads as 0. -/
def likesOf (v : Video) : Nat := v.likes.getD 0

/-- The environment configuration the backend reads for the trending
pipeline.  From backend/.env.example and the code: the only relevant
variable is `TREND_THRESHOLD`; `none` models the variable being unset. -/
structure Env where
  trendThreshold : Option Nat
deriving DecidableEq

/-- From trendingJob.js: `Number(process.env.TREND_THRESHOLD || 50)`. -/
def thresholdOf (e : Env) : Nat := e.trendThreshold.getD 50

/-- From server.js: `cron.schedule("*/2 * * * *", ...)` — the job period
is this hard-coded cron expression (every two minutes). -/
def cronSpec : String := "*/2 * * * *"

/-- From trendingJob.js: `.limit(10)` — the hard-coded result-size cap of
the trending job. -/
def trendingLimit : Nat := 10

/-- From videoController.js `getTrending`: `.limit(20)` — the hard-coded
result-size cap of the REST trending endpoint. -/
def restTrendingLimit : Nat := 20

/-- Stable descending insertion by likes: models one step of the data
store sorting `{ likes: -1 }`. -/
def insertDesc (v : Video) : List Video → List Video
  | [] => [v]
  | w :: ws => if likesOf w < likesOf v then v :: w :: ws else w :: insertDesc v ws

/-- Stable sort, descending by likes: models `.sort({ likes: -1 })`. -/
def sortDesc : List Video → List Video
  | [] => []
  | v :: vs => insertDesc v (sortDesc vs)

/-- The descending top list the trending job obtains from the data store:
`Video.find({ likes: { $gte: threshold } }).sort({ likes: -1 }).limit(10)`
(trendingJob.js). -/
def trendingTop (e : Env) (store : List Video) : List Video :=
  (sortDesc (store.filter (fun v => thresholdOf e ≤ likesOf v))).take trendingLimit

/-- The events one failure-free run of `processTrending` publishes:
`trending.forEach(v => io.to('trending').emit('feed-update-trending', v))`
(trendingJob.js) — one event to the shared `trending` room per item. -/
def processTrendingEmits (e : Env) (store : List Video) : List (String × Video) :=
  (trendingTop e store).map (fun v => ("trending", v))

/-- The emit loop of `processTrending` when an individual `emit` may throw
(`fail v = true` models, e.g., `RelayUnavailable` on that item's publish).
The whole `forEach` sits inside the single `try { ... } catch` of
trendingJob.js, so the first throwing emit aborts the remaining iterations;
the exception is caught and only logged. -/
def emitLoop (fail : Video → Bool) : List Video → List Video
  | [] => []
  | v :: vs => if fail v then [] else v :: emitLoop fail vs

/-- Events actually published by a run of `processTrending` in which the
publishes selected by `fail` throw (trendingJob.js). -/
def processTrendingRun (fail : Video → Bool) (e : Env) (store : List Video) :
    List (String × Video) :=
  (emitLoop fail (trendingTop e store)).map (fun v => ("trending", v))

/-- A trigger event of the cron scheduler: `tick` is the cron firing
(server.js runs the handler, which always calls `processTrending` and hence
always issues one data-store query), `finish` is a previously started run
completing. -/
inductive CronEvent
  | tick
  | finish
deriving DecidableEq

/-- Observable scheduler state: how many job runs are currently in flight
and how many data-store queries have been issued in total. -/
structure JobState where
  inFlight : Nat
  queries : Nat
deriving DecidableEq

/-- One scheduler step.  server.js registers
`cron.schedule("*/2 * * * *", async () => { await processTrending(io) })`
with no in-flight guard: every tick starts a run (and its query)
unconditionally; a finish retires one run. -/
def cronStep (s : JobState) : CronEvent → JobState
  | .tick => ⟨s.inFlight + 1, s.queries + 1⟩
  | .finish => ⟨s.inFlight - 1, s.queries⟩

/-- Fold a trace of scheduler events. -/
def cronRun (s : JobState) : List CronEvent → JobState
  | [] => s
  | ev :: evs => cronRun (cronStep s ev) evs

/-- Number of cron firings in a trace. -/
def tickCount (tr : List CronEvent) : Nat :=
  tr.countP (fun ev => ev == CronEvent.tick)

/-- Per-instance connection registry: each live connection id with the
list of rooms it has joined (Socket.IO room state, as driven by the
handlers in backend/socket.js). -/
abbrev Registry := List (Nat × List String)

/-- Socket.IO `socket.join(room)`: adds the connection to the room
(idempotent — joining a room the socket is already in changes nothing);
it never removes the connection from any other room. -/
def joinRoom (r : Registry) (cid : Nat) (room : String) : Registry :=
  match r with
  | [] => [(cid, [room])]
  | (c, rooms) :: rest =>
    if c = cid then (c, if room ∈ rooms then rooms else rooms ++ [room]) :: rest
    else (c, rooms) :: joinRoom rest cid room

/-- The `socket.on("register", ...)` handler of backend/socket.js:
`socket.join(user_userId)` then `socket.join("trending")` — two joins,
no leave. -/
def register (r : Registry) (cid : Nat) (userId : Nat) : Registry :=
  joinRoom (joinRoom r cid ("user_" ++ toString userId)) cid "trending"

/-- Disconnect of a connection: Socket.IO removes the socket from every
room and discards it (the repository's `disconnect` handler itself only
logs).  Modelled from the spec: `onDisconnect(connectionId)` removes the
connection from all groups and discards its record — this removal lives
in the Socket.IO library, not under the repository's own files. -/
def disconnect (r : Registry) (cid : Nat) : Registry :=
  r.filter (fun p => p.1 ≠ cid)

/-- The local member set of a room (the registry view the fan-out
dispatcher reads). -/
def membersOf (r : Registry) (room : String) : List Nat :=
  (r.filter (fun p => room ∈ p.2)).map (fun p => p.1)

/-- A user record, after backend/models/User.js: `followers` and
`following` are arrays of user ids.  `uid` models the Mongo `_id`. -/
structure User where
  uid : Nat
  followers : List Nat
  following : List Nat
deriving DecidableEq

/-- `User.findById(id)` over a list-modelled store. -/
def findUser (users : List User) (uid : Nat) : Option User :=
  users.find? (fun u => u.uid = uid)

/-- The fresh video record `uploadVideo` saves:
`new Video({ title, url: /uploads/filename, user: userId })` — schema
default gives `likes = 0`, comments empty. -/
def mkVideo (newId : Nat) (title : String) (fname : String) (userId : Nat) : Video :=
  ⟨newId, title, "/uploads/" ++ fname, userId, some 0, []⟩

/-- The observable outcome of one `uploadVideo` request: HTTP status,
resulting video store, and the events emitted to rooms. -/
structure UploadResp where
  status : Nat
  videos : List Video
  emits : List (String × Video)
deriving DecidableEq

/-- `uploadVideo` of backend/controllers/videoController.js.  With no file
it returns 400 before saving.  Otherwise it saves the video, then resolves
the owner: if `User.findById(userId)` is null, `user.followers` throws and
the catch-all returns 500 — with the video already saved and nothing
emitted.  Otherwise it emits `feed-update-following` once per follower to
that follower's personal room and responds 200 with the video. -/
def uploadVideo (users : List User) (videos : List Video) (title : String)
    (userId : Nat) (hasFile : Bool) (fname : String) (newId : Nat) : UploadResp :=
  if !hasFile then ⟨400, videos, []⟩
  else
    let v := mkVideo newId title fname userId
    let videos2 := videos ++ [v]
    match findUser users userId with
    | none => ⟨500, videos2, []⟩
    | some u => ⟨200, videos2, u.followers.map (fun f => ("user_" ++ toString f, v))⟩

/-- `likeVideo` of backend/controllers/videoController.js:
`video.likes = (video.likes || 0) + 1; await video.save(); res.json(video)`.
A missing id makes `video.likes` throw, caught as a 400 — modelled as
`none`; otherwise returns the updated store and the updated record. -/
def likeVideo (videos : List Video) (id : Nat) : Option (List Video × Video) :=
  match videos.find? (fun v => v.vid = id) with
  | none => none
  | some v =>
    let v2 := { v with likes := some (likesOf v + 1) }
    some (videos.map (fun w => if w.vid = id then v2 else w), v2)

/-- Mongo `$addToSet`: append the element only if absent. -/
def addToSet (l : List Nat) (x : Nat) : List Nat :=
  if x ∈ l then l else l ++ [x]

/-- `User.findByIdAndUpdate(id, upd)` over a list-modelled store: applies
`f` to every record with that id (a no-op when the id is absent, as in
mongoose). -/
def updateUser (users : List User) (uid : Nat) (f : User → User) : List User :=
  users.map (fun u => if u.uid = uid then f u else u)

/-- `follow` of backend/controllers/userController.js: reject
`userId === targetId` with a 400 `Invalid` error before touching any
record; otherwise `$addToSet` `userId` into the target's followers and
`targetId` into the user's following.  Returns the response outcome
together with the resulting user store. -/
def follow (users : List User) (userId targetId : Nat) :
    Except String Unit × List User :=
  if userId = targetId then (Except.error "Invalid", users)
  else (Except.ok (), updateUser
    (updateUser users targetId (fun u => { u with followers := addToSet u.followers userId }))
    userId (fun u => { u with following := addToSet u.following targetId }))

/-- A demo video with given id and like count, for the concrete scenarios
of the spec. -/
def demoVideo (i count : Nat) : Video :=
  ⟨i, "demo", "/uploads/demo.mp4", 1, some count, []⟩

/-- The concrete store of the spec's trending scenario: engagement counts
[80, 60, 40, 90]. -/
def demoStore : List Video :=
  [demoVideo 1 80, demoVideo 2 60, demoVideo 3 40, demoVideo 4 90]

/-- Eleven videos, all with likes well above any small threshold, to
exercise the hard-coded result cap. -/
def manyStore : List Video :=
  (List.range 11).map (fun i => demoVideo i (100 + i))

/-- A publish-failure pattern: the emit of the item with 90 likes throws
(e.g. `RelayUnavailable` on that one publish). -/
def demoFail (v : Video) : Bool := likesOf v == 90

/-! Helper lemmas about the descending sort used by the trending job. -/

theorem insertDesc_perm (v : Video) (l : List Video) : List.Perm (insertDesc v l) (v :: l) := by
  induction l with
  | nil => rfl
  | cons w ws ih =>
    by_cases h : likesOf w < likesOf v
    · simp [insertDesc, h]
    · simp only [insertDesc, if_neg h]
      exact (ih.cons w).trans (List.Perm.swap v w ws)

theorem sortDesc_perm (l : List Video) : List.Perm (sortDesc l) l := by
  induction l with
  | nil => rfl
  | cons v vs ih => exact (insertDesc_perm v (sortDesc vs)).trans (ih.cons v)

theorem insertDesc_pairwise (v : Video) (l : List Video)
    (h : l.Pairwise (fun a b => likesOf b ≤ likesOf a)) :
    (insertDesc v l).Pairwise (fun a b => likesOf b ≤ likesOf a) := by
  induction l with
  | nil => simp [insertDesc]
  | cons w ws ih =>
    rcases List.pairwise_cons.mp h with ⟨hw, hws⟩
    by_cases hlt : likesOf w < likesOf v
    · simp only [insertDesc, if_pos hlt]
      refine List.pairwise_cons.mpr ⟨?_, h⟩
      intro x hx
      rcases List.mem_cons.mp hx with rfl | hx
      · exact Nat.le_of_lt hlt
      · exact (hw x hx).trans (Nat.le_of_lt hlt)
    · simp only [insertDesc, if_neg hlt]
      refine List.pairwise_cons.mpr ⟨?_, ih hws⟩
      intro x hx
      have hx2 : x ∈ v :: ws := (insertDesc_perm v ws).mem_iff.mp hx
      rcases List.mem_cons.mp hx2 with rfl | hx2
      · exact Nat.le_of_not_lt hlt
      · exact hw x hx2

theorem sortDesc_pairwise (l : List Video) :
    (sortDesc l).Pairwise (fun a b => likesOf b ≤ likesOf a) := by
  induction l with
  | nil => simp [sortDesc]
  | cons v vs ih => exact insertDesc_pairwise v (sortDesc vs) ih

theorem addToSet_idem (l : List Nat) (x : Nat) :
    addToSet (addToSet l x) x = addToSet l x := by
  by_cases h : x ∈ l
  · simp [addToSet, h]
  · simp [addToSet, h]

/-! Claim theorems. -/

/-- C1: every run of the trending job publishes events only to the shared
`trending` group and only for items whose engagement count meets the
threshold, in descending-count order; it publishes exactly
`min trendingLimit K` events for K qualifying items (one per item, capped
at the top `trendingLimit`), the published payloads are always drawn
without repetition from the qualifying items, and whenever the cap does
not bind they are exactly the qualifying items; on the concrete store with
counts [80, 60, 40, 90] and threshold 50 the run publishes exactly 3
events in order [90, 80, 60], and on a store with 11 qualifying items it
publishes exactly 10. -/
theorem trending_job_topn_desc (e : Env) (store : List Video) :
    (∀ ev ∈ processTrendingEmits e store, ev.1 = "trending" ∧ thresholdOf e ≤ likesOf ev.2) ∧
    (processTrendingEmits e store).Pairwise (fun a b => likesOf b.2 ≤ likesOf a.2) ∧
    (processTrendingEmits e store).length =
      min trendingLimit (store.filter (fun v => thresholdOf e ≤ likesOf v)).length ∧
    List.Subperm ((processTrendingEmits e store).map Prod.snd)
      (store.filter (fun v => thresholdOf e ≤ likesOf v)) ∧
    ((store.filter (fun v => thresholdOf e ≤ likesOf v)).length ≤ trendingLimit →
      List.Perm ((processTrendingEmits e store).map Prod.snd)
        (store.filter (fun v => thresholdOf e ≤ likesOf v))) ∧
    ((processTrendingEmits ⟨some 50⟩ demoStore).map (fun ev => likesOf ev.2) = [90, 80, 60] ∧
      (processTrendingEmits ⟨some 50⟩ demoStore).length = 3 ∧
      (processTrendingEmits ⟨none⟩ manyStore).length = 10) := by
  have hsort := sortDesc_perm (store.filter (fun v => thresholdOf e ≤ likesOf v))
  have hsnd : (processTrendingEmits e store).map Prod.snd = trendingTop e store := by
    unfold processTrendingEmits
    simp [List.map_map, Function.comp]
  refine ⟨?_, ?_, ?_, ?_, ?_, by decide, by decide, by decide⟩
  · intro ev hev
    rcases List.mem_map.mp hev with ⟨v, hv, rfl⟩
    refine ⟨rfl, ?_⟩
    have hv2 : v ∈ sortDesc (store.filter (fun v => thresholdOf e ≤ likesOf v)) :=
      List.mem_of_mem_take hv
    have hvf := hsort.mem_iff.mp hv2
    simpa using (List.mem_filter.mp hvf).2
  · have hp : (trendingTop e store).Pairwise (fun a b => likesOf b ≤ likesOf a) :=
      List.Pairwise.sublist (List.take_sublist _ _) (sortDesc_pairwise _)
    exact hp.map _ (fun a b h => h)
  · unfold processTrendingEmits trendingTop
    rw [List.length_map, List.length_take, hsort.length_eq]
  · rw [hsnd]
    exact ((List.take_sublist _ _).subperm).trans hsort.subperm
  · intro hlen
    rw [hsnd]
    have htake : trendingTop e store =
        sortDesc (store.filter (fun v => thresholdOf e ≤ likesOf v)) := by
      unfold trendingTop
      exact List.take_of_length_le (by rw [hsort.length_eq]; exact hlen)
    rw [htake]
    exact hsort

/-- Witness for C1 at the spec's concrete scenario, discharging the
uncapped-regime hypothesis there. -/
theorem trending_job_topn_desc_witness :
    (processTrendingEmits ⟨some 50⟩ demoStore).map (fun ev => likesOf ev.2) = [90, 80, 60] ∧
    List.Perm ((processTrendingEmits ⟨some 50⟩ demoStore).map Prod.snd)
      (demoStore.filter (fun v => thresholdOf ⟨some 50⟩ ≤ likesOf v)) :=
  ⟨(trending_job_topn_desc ⟨some 50⟩ demoStore).2.2.2.2.2.1,
   (trending_job_topn_desc ⟨some 50⟩ demoStore).2.2.2.2.1 (by decide)⟩

/-- C7 counterexample: in the spec's concrete scenario, if the publish of
the top item (likes 90) throws, the run publishes nothing at all — the
events for the remaining items (likes 80 and 60) are aborted, because the
single try/catch of trendingJob.js wraps the whole emit loop. -/
theorem trending_failure_aborts_cex :
    processTrendingRun demoFail ⟨some 50⟩ demoStore = [] ∧
    ("trending", demoVideo 1 80) ∉ processTrendingRun demoFail ⟨some 50⟩ demoStore ∧
    ("trending", demoVideo 1 80) ∈ processTrendingEmits ⟨some 50⟩ demoStore := by
  refine ⟨by decide, by decide, by decide⟩

/-- C7 amended: a failing publish inside a trending run is caught (and
only logged) by the run-level try/catch, but it aborts the remaining
publishes: the run emits exactly the maximal failure-free prefix of the
descending top list, so the published events always form a prefix of the
failure-free run's events. -/
theorem trending_failure_publishes_prefix (fail : Video → Bool) (e : Env)
    (store : List Video) :
    emitLoop fail (trendingTop e store) =
      (trendingTop e store).takeWhile (fun v => !fail v) ∧
    ∃ rest, processTrendingEmits e store = processTrendingRun fail e store ++ rest := by
  have hloop : ∀ l : List Video, emitLoop fail l = l.takeWhile (fun v => !fail v) := by
    intro l
    induction l with
    | nil => rfl
    | cons v vs ih =>
      by_cases h : fail v
      · simp [emitLoop, h, List.takeWhile_cons]
      · simp [emitLoop, h, List.takeWhile_cons, ih]
  refine ⟨hloop _, ?_⟩
  refine ⟨((trendingTop e store).dropWhile (fun v => !fail v)).map
    (fun v => ("trending", v)), ?_⟩
  unfold processTrendingEmits processTrendingRun
  rw [hloop, ← List.map_append, List.takeWhile_append_dropWhile]

/-- C3 counterexample: a second cron tick arriving while the first run is
still in flight (no intervening finish) starts a second concurrent run and
issues a second data-store query — it is not skipped (queries would have
stayed at 1). -/
theorem cron_overlap_cex :
    (cronRun ⟨0, 0⟩ [CronEvent.tick, CronEvent.tick]).queries = 2 ∧
    (cronRun ⟨0, 0⟩ [CronEvent.tick, CronEvent.tick]).inFlight = 2 ∧
    ¬ (cronRun ⟨0, 0⟩ [CronEvent.tick, CronEvent.tick]).queries = 1 := by
  refine ⟨by decide, by decide, by decide⟩

/-- C3 amended: the cron registration in server.js has no in-flight
guard — every trigger of the job runs it and performs a data-store query,
regardless of how many prior runs are still in flight: over any trace,
total queries equal the number of ticks. -/
theorem cron_no_overlap_guard (s : JobState) (tr : List CronEvent) :
    (cronRun s tr).queries = s.queries + tickCount tr := by
  induction tr generalizing s with
  | nil => simp [cronRun, tickCount]
  | cons ev evs ih =>
    cases ev with
    | tick =>
      simp only [cronRun, cronStep, ih, tickCount, List.countP_cons]
      simp [tickCount]
      omega
    | finish =>
      simp only [cronRun, cronStep, ih, tickCount, List.countP_cons]
      simp [tickCount]

/-! Helper lemmas about the room registry. -/

theorem membersOf_cons (c : Nat) (rooms : List String) (rest : Registry) (rm : String) :
    membersOf ((c, rooms) :: rest) rm =
      if rm ∈ rooms then c :: membersOf rest rm else membersOf rest rm := by
  by_cases hr : rm ∈ rooms <;> simp [membersOf, List.filter_cons, hr]

theorem mem_membersOf_cons (c : Nat) (rooms : List String) (rest : Registry)
    (x : Nat) (rm : String) :
    x ∈ membersOf ((c, rooms) :: rest) rm ↔
      (x = c ∧ rm ∈ rooms) ∨ x ∈ membersOf rest rm := by
  rw [membersOf_cons]
  by_cases hr : rm ∈ rooms <;> simp [hr]

theorem joinRoom_cons_eq (rooms : List String) (rest : Registry) (cid : Nat)
    (room : String) :
    joinRoom ((cid, rooms) :: rest) cid room =
      (cid, if room ∈ rooms then rooms else rooms ++ [room]) :: rest := by
  simp [joinRoom]

theorem joinRoom_cons_ne (c : Nat) (rooms : List String) (rest : Registry) (cid : Nat)
    (room : String) (hc : ¬ c = cid) :
    joinRoom ((c, rooms) :: rest) cid room = (c, rooms) :: joinRoom rest cid room := by
  simp [joinRoom, hc]

theorem disconnect_cons (c : Nat) (rooms : List String) (rest : Registry) (cid : Nat) :
    disconnect ((c, rooms) :: rest) cid =
      if c = cid then disconnect rest cid else (c, rooms) :: disconnect rest cid := by
  by_cases hc : c = cid <;> simp [disconnect, List.filter_cons, hc]

theorem mem_membersOf_joinRoom_self (r : Registry) (cid : Nat) (room : String) :
    cid ∈ membersOf (joinRoom r cid room) room := by
  induction r with
  | nil => simp [joinRoom, membersOf]
  | cons p rest ih =>
    obtain ⟨c, rooms⟩ := p
    by_cases hc : c = cid
    · subst hc
      rw [joinRoom_cons_eq, mem_membersOf_cons]
      refine Or.inl ⟨rfl, ?_⟩
      by_cases hm : room ∈ rooms <;> simp [hm]
    · rw [joinRoom_cons_ne c rooms rest cid room hc, mem_membersOf_cons]
      exact Or.inr ih

theorem membersOf_joinRoom_mono (r : Registry) (cid x : Nat) (room rm : String)
    (h : x ∈ membersOf r rm) : x ∈ membersOf (joinRoom r cid room) rm := by
  induction r with
  | nil => simp [membersOf] at h
  | cons p rest ih =>
    obtain ⟨c, rooms⟩ := p
    rw [mem_membersOf_cons] at h
    by_cases hc : c = cid
    · subst hc
      rw [joinRoom_cons_eq, mem_membersOf_cons]
      rcases h with ⟨hx, hrm⟩ | h
      · refine Or.inl ⟨hx, ?_⟩
        by_cases hm : room ∈ rooms
        · simpa [hm] using hrm
        · simp only [if_neg hm]
          exact List.mem_append.mpr (Or.inl hrm)
      · exact Or.inr h
    · rw [joinRoom_cons_ne c rooms rest cid room hc, mem_membersOf_cons]
      rcases h with h | h
      · exact Or.inl h
      · exact Or.inr (ih h)

/-- C2 counterexample: a connection that registers with user id 1 and then
re-registers with user id 2 is still a member of `user_1` — the old
personal room membership is not removed, so the connection belongs to two
personal groups, not exactly one. -/
theorem register_retarget_cex :
    membersOf (register (register [(0, ([] : List String))] 0 1) 0 2) "user_1" = [0] ∧
    membersOf (register (register [(0, ([] : List String))] 0 1) 0 2) "user_2" = [0] ∧
    ¬ membersOf (register (register [(0, ([] : List String))] 0 1) 0 2) "user_1" = [] := by
  refine ⟨by decide, by decide, by decide⟩

/-- C2 amended: the `register` handler only joins rooms (it never calls
leave), so identifying a second time with a different user id adds the new
personal group membership and keeps the old one: afterwards the connection
is a member of both personal groups and of `trending`. -/
theorem register_join_only (r : Registry) (cid u1 u2 : Nat) :
    cid ∈ membersOf (register (register r cid u1) cid u2) ("user_" ++ toString u1) ∧
    cid ∈ membersOf (register (register r cid u1) cid u2) ("user_" ++ toString u2) ∧
    cid ∈ membersOf (register (register r cid u1) cid u2) "trending" := by
  unfold register
  refine ⟨?_, ?_, ?_⟩
  · exact membersOf_joinRoom_mono _ cid cid _ _
      (membersOf_joinRoom_mono _ cid cid _ _
        (membersOf_joinRoom_mono _ cid cid _ _
          (mem_membersOf_joinRoom_self r cid _)))
  · exact membersOf_joinRoom_mono _ cid cid _ _
      (mem_membersOf_joinRoom_self _ cid _)
  · exact mem_membersOf_joinRoom_self _ cid _

/-- C6: disconnecting removes the connection from every room — membersOf
after a disconnect is exactly the previous member set with that connection
filtered out (so others are untouched, and the operation is meaningful
even for a connection that never registered); in particular a connection
that registered as `uid` and then disconnected is absent from
`user_<uid>`. -/
theorem disconnect_removes_membership (r : Registry) (cid u : Nat) (room : String) :
    membersOf (disconnect r cid) room = (membersOf r room).filter (fun c => c ≠ cid) ∧
    cid ∉ membersOf (disconnect (register r cid u) cid) ("user_" ++ toString u) := by
  have hfilter : ∀ s : Registry,
      membersOf (disconnect s cid) room = (membersOf s room).filter (fun c => c ≠ cid) := by
    intro s
    induction s with
    | nil => rfl
    | cons p rest ih =>
      obtain ⟨c, rooms⟩ := p
      rw [disconnect_cons, membersOf_cons]
      by_cases hc : c = cid
      · subst hc
        by_cases hr : room ∈ rooms <;> simp [hr, ih, List.filter_cons]
      · by_cases hr : room ∈ rooms <;>
          simp [hc, hr, ih, List.filter_cons, membersOf_cons]
  refine ⟨hfilter r, ?_⟩
  have h2 : ∀ s : Registry, ∀ rm : String, cid ∉ membersOf (disconnect s cid) rm := by
    intro s rm hmem
    unfold disconnect membersOf at hmem
    rcases List.mem_map.mp hmem with ⟨p, hp, hfst⟩
    have := (List.mem_filter.mp (List.mem_filter.mp hp).1).2
    simp [hfst] at this
  exact h2 _ _

/-- C4 counterexample: when the owner of an upload cannot be resolved
(empty user store), the request does not succeed — the catch-all of
`uploadVideo` answers 500 (the video record, already saved, stays in the
store, and nothing is emitted), contradicting the claim that the upload
request itself still succeeds. -/
theorem upload_owner_missing_cex :
    (uploadVideo [] [] "clip" 7 true "f.mp4" 1).status = 500 ∧
    ¬ (uploadVideo [] [] "clip" 7 true "f.mp4" 1).status = 200 ∧
    (uploadVideo [] [] "clip" 7 true "f.mp4" 1).emits = [] ∧
    (uploadVideo [] [] "clip" 7 true "f.mp4" 1).videos = [mkVideo 1 "clip" "f.mp4" 7] := by
  refine ⟨by decide, by decide, by decide, by decide⟩

/-- C4 amended: if the owning user record cannot be resolved, no event is
published and the already-saved content record stays in the store, but the
originating request fails with status 500 (the controller's catch-all
wraps the notification path) rather than succeeding. -/
theorem upload_owner_missing (users : List User) (videos : List Video)
    (title fname : String) (userId newId : Nat)
    (h : findUser users userId = none) :
    uploadVideo users videos title userId true fname newId =
      ⟨500, videos ++ [mkVideo newId title fname userId], []⟩ := by
  simp [uploadVideo, h]

/-- Witness for the amended C4. -/
theorem upload_owner_missing_witness :
    uploadVideo [] [] "clip" 7 true "f.mp4" 1 =
      ⟨500, [] ++ [mkVideo 1 "clip" "f.mp4" 7], []⟩ :=
  upload_owner_missing [] [] "clip" "f.mp4" 7 1 (by decide)

/-- C5: when the owner resolves to a user with follower list of size K
(K = 0 included), the upload emits exactly K events, one per follower to
that follower's personal room, each carrying the identical saved video
payload, and the request succeeds with 200. -/
theorem upload_fanout_per_follower (users : List User) (videos : List Video)
    (title fname : String) (userId newId : Nat) (u : User)
    (h : findUser users userId = some u) :
    (uploadVideo users videos title userId true fname newId).emits =
      u.followers.map (fun f => ("user_" ++ toString f, mkVideo newId title fname userId)) ∧
    (uploadVideo users videos title userId true fname newId).emits.length =
      u.followers.length ∧
    (uploadVideo users videos title userId true fname newId).status = 200 := by
  refine ⟨?_, ?_, ?_⟩ <;> simp [uploadVideo, h]

/-- Witness for C5 with two followers. -/
theorem upload_fanout_witness :
    (uploadVideo [⟨7, [3, 5], []⟩] [] "clip" 7 true "f.mp4" 1).emits =
      [3, 5].map (fun f => ("user_" ++ toString f, mkVideo 1 "clip" "f.mp4" 7)) ∧
    (uploadVideo [⟨7, [3, 5], []⟩] [] "clip" 7 true "f.mp4" 1).emits.length =
      ([3, 5] : List Nat).length ∧
    (uploadVideo [⟨7, [3, 5], []⟩] [] "clip" 7 true "f.mp4" 1).status = 200 :=
  upload_fanout_per_follower [⟨7, [3, 5], []⟩] [] "clip" "f.mp4" 7 1 ⟨7, [3, 5], []⟩ (by decide)

/-- C9: liking an existing video increments its like count by exactly one
(a missing likes field counts as 0), leaves its other fields untouched,
returns the updated record, and rewrites only that id in the store. -/
theorem like_increments_only_likes (videos : List Video) (id : Nat) (v : Video)
    (h : videos.find? (fun w => w.vid = id) = some v) :
    ∃ p : List Video × Video, likeVideo videos id = some p ∧
      p.2.likes = some (likesOf v + 1) ∧
      p.2.title = v.title ∧ p.2.url = v.url ∧ p.2.user = v.user ∧
      p.2.comments = v.comments ∧ p.2.vid = v.vid ∧
      (v.likes = none → p.2.likes = some 1) ∧
      p.1 = videos.map (fun w => if w.vid = id then p.2 else w) := by
  refine ⟨(videos.map (fun w => if w.vid = id then { v with likes := some (likesOf v + 1) } else w),
    { v with likes := some (likesOf v + 1) }), ?_⟩
  refine ⟨by simp [likeVideo, h], rfl, rfl, rfl, rfl, rfl, rfl, ?_, rfl⟩
  intro hn
  simp [likesOf, hn]

/-- Witness for C9 on a video whose likes field is missing. -/
theorem like_increments_witness :
    ∃ p : List Video × Video,
      likeVideo [⟨1, "a", "/uploads/a.mp4", 2, none, []⟩] 1 = some p ∧
      p.2.likes = some 1 := by
  obtain ⟨p, h1, h2, -⟩ :=
    like_increments_only_likes [⟨1, "a", "/uploads/a.mp4", 2, none, []⟩] 1
      ⟨1, "a", "/uploads/a.mp4", 2, none, []⟩ (by decide)
  exact ⟨p, h1, h2⟩

/-- C10: `follow` is idempotent on the user store (set-insertion
semantics) and rejects self-follows without modifying any record. -/
theorem follow_idempotent_rejects_self (users : List User) (a b : Nat) :
    (follow (follow users a b).2 a b).2 = (follow users a b).2 ∧
    (a = b → follow users a b = (Except.error "Invalid", users)) := by
  constructor
  · by_cases h : a = b
    · simp [follow, h]
    · simp only [follow, if_neg h, updateUser, List.map_map]
      apply List.map_congr_left
      intro u _
      have h2 : ¬ b = a := fun hba => h hba.symm
      by_cases hb : u.uid = b <;> by_cases ha : u.uid = a
      · exact absurd (ha.symm.trans hb) h
      · simp [Function.comp, hb, ha, h, h2, addToSet_idem]
      · simp [Function.comp, hb, ha, h, h2, addToSet_idem]
      · simp [Function.comp, hb, ha]
  · intro h
    simp [follow, h]

/-- Witness for C10: double-follow result on a concrete store, and the
self-follow rejection. -/
theorem follow_idempotent_witness :
    (follow (follow [⟨1, [], []⟩, ⟨2, [], []⟩] 1 2).2 1 2).2 =
      (follow [⟨1, [], []⟩, ⟨2, [], []⟩] 1 2).2 ∧
    (1 = 1 → follow [⟨1, [], []⟩, ⟨2, [], []⟩] 1 1 =
      (Except.error "Invalid", [⟨1, [], []⟩, ⟨2, [], []⟩])) :=
  ⟨(follow_idempotent_rejects_self [⟨1, [], []⟩, ⟨2, [], []⟩] 1 2).1,
   (follow_idempotent_rejects_self [⟨1, [], []⟩, ⟨2, [], []⟩] 1 1).2⟩

/-- C8 counterexample: the result-size cap and the job cadence are not
part of the configuration surface the code reads — with the only
environment variable the trending pipeline consults (`TREND_THRESHOLD`)
set to three different values, a store of 11 qualifying items always
yields exactly 10 events (the hard-coded `.limit(10)`), and the cadence is
the hard-coded cron literal; so interval and topN are not overridable at
startup. -/
theorem config_surface_cex :
    (processTrendingEmits ⟨none⟩ manyStore).length = 10 ∧
    (processTrendingEmits ⟨some 0⟩ manyStore).length = 10 ∧
    (processTrendingEmits ⟨some 99⟩ manyStore).length = 10 ∧
    cronSpec = "*/2 * * * *" := by
  refine ⟨by decide, by decide, by decide, rfl⟩

/-- C8 amended: only the threshold is configurable at startup
(`TREND_THRESHOLD`, default 50, override honoured); the job interval is
the hard-coded two-minute cron expression and the result-size caps are the
hard-coded 10 (job) and 20 (REST trending endpoint), bounding every run's
output. -/
theorem config_surface_threshold_only (t : Nat) (e : Env) (store : List Video) :
    thresholdOf ⟨none⟩ = 50 ∧
    thresholdOf ⟨some t⟩ = t ∧
    (processTrendingEmits e store).length ≤ trendingLimit ∧
    trendingLimit = 10 ∧ restTrendingLimit = 20 ∧ cronSpec = "*/2 * * * *" := by
  refine ⟨rfl, rfl, ?_, rfl, rfl, rfl⟩
  unfold processTrendingEmits trendingTop
  rw [List.length_map]
  exact List.length_take_le _ _

end TikTok
